import Mathlib

/-
Shallow embedding of the timer scheduler in `agent/components/tools/timer_tool.py`
(class `TimerTool`).  Timestamps (Python `datetime.timestamp()` floats) are
modelled as rationals; naive `datetime` values are modelled as a calendar-day
plus time-of-day record; the regex extraction performed by the `re` module and
the syntax check performed by `ast.parse` (both external libraries) are
modelled by records carrying their outcome.  Everything else is translated
directly from the Python source.
-/

namespace TimerTool

/-- A naive Python `datetime`: a calendar day (days since an arbitrary epoch)
together with hour / minute / second / microsecond fields.  `replace` and
`timedelta(days=1)` act on the fields; comparison and `timestamp()` go through
`toSecs`. -/
structure DateTime where
  day : ℤ
  hour : ℕ
  minute : ℕ
  second : ℕ
  micro : ℕ
deriving DecidableEq

/-- `datetime.timestamp()`: epoch seconds of a naive datetime, as a rational. -/
def DateTime.toSecs (d : DateTime) : ℚ :=
  (d.day : ℚ) * 86400 + (d.hour : ℚ) * 3600 + (d.minute : ℚ) * 60
    + (d.second : ℚ) + (d.micro : ℚ) / 1000000

/-- Field ranges every real Python `datetime` satisfies (Python keeps datetimes
normalized, so `<=` on datetimes agrees with `<=` on `toSecs`). -/
def DateTime.Valid (d : DateTime) : Prop :=
  d.hour ≤ 23 ∧ d.minute ≤ 59 ∧ d.second ≤ 59 ∧ d.micro < 1000000

instance (d : DateTime) : Decidable d.Valid := by
  unfold DateTime.Valid; infer_instance

/-- `now.replace(hour=hour, minute=minute, second=0, microsecond=0)`:
Python raises `ValueError` when the hour or minute is out of range, modelled
by the `Except.error` branch. -/
def DateTime.replaceTime (d : DateTime) (h m : ℕ) : Except String DateTime :=
  if h ≤ 23 then
    if m ≤ 59 then
      Except.ok { d with hour := h, minute := m, second := 0, micro := 0 }
    else Except.error "minute must be in 0..59"
  else Except.error "hour must be in 0..23"

/-- The seven time units recognized by the `time_patterns` regex table. -/
inductive TimeUnit
  | seconds
  | minutes
  | hours
  | days
  | weeks
  | months
  | years
deriving DecidableEq

/-- Seconds multiplier of each unit, from the `time_patterns` table. -/
def TimeUnit.multiplier : TimeUnit → ℕ
  | .seconds => 1
  | .minutes => 60
  | .hours => 3600
  | .days => 86400
  | .weeks => 604800
  | .months => 2592000
  | .years => 31536000

/-- Modelled regex extraction for one schedule string: which trigger keywords
occur in the lowercased spec, the `(\d+)\s*unit` tokens found by
`re.finditer` over the `time_patterns` table (in the remainder used by the
relative grammar and in the remainder used by the recurring grammar — the two
keyword-stripping rules can leave different remainders), the first
`H[:MM]` match of the absolute grammar, and whether a daily-repetition
keyword occurs. -/
structure TimeSpec where
  hasCherez : Bool
  hasKazhd : Bool
  hasV : Bool
  hasDaily : Bool
  relTokens : List (ℕ × TimeUnit)
  recTokens : List (ℕ × TimeUnit)
  absTime : Option (ℕ × Option ℕ)
deriving DecidableEq

/-- The `seconds += value * multiplier` accumulation loop over all matched
unit tokens. -/
def sum_unit_tokens (toks : List (ℕ × TimeUnit)) : ℕ :=
  toks.foldl (fun acc p => acc + p.1 * p.2.multiplier) 0

/-- `_parse_relative_time`: sum every matched unit token; fail when the sum is
zero; otherwise one-shot at `now + seconds`. -/
def parse_relative_time (ts : TimeSpec) (now : DateTime) :
    Option (ℚ × Bool × Option ℚ) :=
  let seconds := sum_unit_tokens ts.relTokens
  if seconds = 0 then none
  else some (now.toSecs + (seconds : ℚ), false, none)

/-- `_parse_recurring_time`: same unit-summing; fail when the sum is zero;
otherwise recurring with `next_run = now + seconds` and interval `seconds`. -/
def parse_recurring_time (ts : TimeSpec) (now : DateTime) :
    Option (ℚ × Bool × Option ℚ) :=
  let seconds := sum_unit_tokens ts.recTokens
  if seconds = 0 then none
  else some (now.toSecs + (seconds : ℚ), true, some (seconds : ℚ))

/-- `_parse_absolute_time`: on an `H[:MM]` match, today at `H:MM:00` (minutes
default to 0), rolled forward one day when that instant is `<= now`;
recurring with interval 86400 iff a daily keyword is present.  The
`now.replace(...)` call raises for an out-of-range hour or minute, which
propagates as `Except.error`. -/
def parse_absolute_time (ts : TimeSpec) (now : DateTime) :
    Except String (Option (ℚ × Bool × Option ℚ)) :=
  match ts.absTime with
  | none => Except.ok none
  | some (h, mo) =>
    let minute := mo.getD 0
    match now.replaceTime h minute with
    | Except.error e => Except.error e
    | Except.ok target0 =>
      let target :=
        if target0.toSecs ≤ now.toSecs then { target0 with day := target0.day + 1 }
        else target0
      let isRec := ts.hasDaily
      Except.ok (some (target.toSecs, isRec, if isRec then some (86400 : ℚ) else none))

/-- `_parse_time_spec`: keyword-dispatched grammar choice; without a keyword,
try the three grammars in order, catching exceptions (`except: continue`) and
returning the first success, else no parse. -/
def parse_time_spec (ts : TimeSpec) (now : DateTime) :
    Except String (Option (ℚ × Bool × Option ℚ)) :=
  if ts.hasCherez then Except.ok (parse_relative_time ts now)
  else if ts.hasKazhd then Except.ok (parse_recurring_time ts now)
  else if ts.hasV then parse_absolute_time ts now
  else
    match parse_relative_time ts now with
    | some r => Except.ok (some r)
    | none =>
      match parse_recurring_time ts now with
      | some r => Except.ok (some r)
      | none =>
        match parse_absolute_time ts now with
        | Except.ok (some r) => Except.ok (some r)
        | _ => Except.ok none

/-- Timer lifecycle status. -/
inductive TStatus
  | active
  | cancelled
  | completed
deriving DecidableEq

/-- An executable payload together with the modelled outcome of `ast.parse`
on it: `astError = some (line, column)` when the code has a syntax error
there, `none` when it parses. -/
structure Procedure where
  code : String
  astError : Option (ℕ × ℕ)
deriving DecidableEq

/-- `_validate_python_code`: re-raise the `ast.parse` syntax error with a
message naming the offending line and column. -/
def validate_python_code (p : Procedure) : Except String Unit :=
  match p.astError with
  | none => Except.ok ()
  | some lc =>
    Except.error ("syntax error at line " ++ toString lc.1
      ++ ", column " ++ toString lc.2)

/-- One persisted timer record (the values of the Python timer dict). -/
structure Timer where
  id : String
  name : String
  time_spec : TimeSpec
  next_run : ℚ
  is_recurring : Bool
  recurrence_interval : Option ℚ
  action : Option String
  procedure : Option Procedure
  created_at : ℚ
  status : TStatus
deriving DecidableEq

/-- The tool's mutable state: the in-memory timer dict (an insertion-ordered
association list, like a Python dict), the last full-map snapshot written to
Redis, and the log lines emitted so far. -/
structure TimerState where
  timers : List (String × Timer)
  redis : Option (List (String × Timer))
  logs : List String
deriving DecidableEq

/-- Python dict read `self.timers.get(timer_id)`. -/
def lookupTimer : List (String × Timer) → String → Option Timer
  | [], _ => none
  | p :: rest, k => if p.1 = k then some p.2 else lookupTimer rest k

/-- Python dict write `self.timers[k] = t`: replace in place when the key
exists (dicts keep the key's position), append otherwise. -/
def upsertTimer : List (String × Timer) → String → Timer → List (String × Timer)
  | [], k, t => [(k, t)]
  | p :: rest, k, t =>
    if p.1 = k then (k, t) :: rest else p :: upsertTimer rest k t

/-- `_save_timer_to_redis`: write the record into the in-memory dict under
`timer["id"]`, then serialize the whole dict to Redis. -/
def save_timer_to_redis (s : TimerState) (t : Timer) : TimerState :=
  let m := upsertTimer s.timers t.id t
  { s with timers := m, redis := some m }

/-- Status of the record stored under a given id, if any. -/
def statusAt (s : TimerState) (tid : String) : Option TStatus :=
  (lookupTimer s.timers tid).map Timer.status

/-- The dict comprehension in `list_timers`: the active records, in the
dict's insertion order (no sorting happens in the source). -/
def activeTimers (m : List (String × Timer)) : List (String × Timer) :=
  m.filter (fun p => decide (p.2.status = TStatus.active))

/-- `list_timers` (rendering abridged to id and name; the Python time-left
pretty-printing affects only the text, not which timers appear or their
order). -/
def list_timers (s : TimerState) : String :=
  match activeTimers s.timers with
  | [] => "no active timers"
  | l => String.intercalate "; " (l.map (fun p => p.1 ++ ": " ++ p.2.name))

/-- `get_timer_details` (rendering abridged). -/
def get_timer_details (s : TimerState) (timer_id : String) : String :=
  match lookupTimer s.timers timer_id with
  | none => "timer not found"
  | some t => "timer " ++ timer_id ++ ": " ++ t.name

/-- The startup catch-up computation in `_update_missed_recurring_timers`:
`missed = int((now - next_run) // interval) + 1;
 new_next_run = next_run + missed * interval`. -/
def resolveCatchUp (lastNextRun interval now : ℚ) : ℚ :=
  lastNextRun + ((⌊(now - lastNextRun) / interval⌋ + 1 : ℤ) : ℚ) * interval

/-- The per-record body of the `_update_missed_recurring_timers` loop:
skip non-active or non-recurring records; apply the catch-up only when the
stored `next_run` is in the past and the interval is truthy (nonzero). -/
def updateMissedTimer (now : ℚ) (t : Timer) : Timer :=
  if t.status = TStatus.active ∧ t.is_recurring = true then
    match t.recurrence_interval with
    | some interval =>
      if t.next_run < now ∧ ¬ interval = 0 then
        { t with next_run := resolveCatchUp t.next_run interval now }
      else t
    | none => t
  else t

/-- `_update_missed_recurring_timers` over the whole loaded map. -/
def update_missed_recurring_timers (now : ℚ) (s : TimerState) : TimerState :=
  { s with timers := s.timers.map (fun p => (p.1, updateMissedTimer now p.2)) }

/-- The rescheduling computation inside `_execute_timer`:
`next_run = timer["next_run"] + interval`, and when that is already in the
past, `missed = int((now - next_run) // interval) + 1;
next_run = timer["next_run"] + missed * interval` — note the mixed bases:
`missed` is measured from the incremented candidate but the multiple is added
to the original `timer["next_run"]`. -/
def engineNextRun (last interval now : ℚ) : ℚ :=
  let next := last + interval
  if next < now then
    last + ((⌊(now - next) / interval⌋ + 1 : ℤ) : ℚ) * interval
  else next

/-- The `logging.error` lines emitted by the two try/except blocks inside
`_execute_timer`: one when a present procedure's `exec` raises, one when a
present action's Task-Sink/Inbox delegation raises (only attempted when an
agent is wired up).  The exceptions themselves are modelled by the two
`Except String Unit` oracle arguments. -/
def fireLogs (t : Timer) (hasAgent : Bool) (p a : Except String Unit) :
    List String :=
  (match t.procedure, p with
   | some _, Except.error e => [e]
   | _, _ => []) ++
  (match t.action, hasAgent, a with
   | some _, true, Except.error e => [e]
   | _, _, _ => [])

/-- `_execute_timer`: re-fetch the record, abort when it is no longer active;
run the procedure and the action delegation with their failures caught and
logged (state is unaffected — they act only on external collaborators and the
log); then either reschedule a recurring timer with a truthy interval via
`engineNextRun`, or mark the record completed; persist through
`_save_timer_to_redis`.  The whole body sits under one more try/except, so the
function never raises to the scheduler loop. -/
def execute_timer (s : TimerState) (timer_id : String)
    (hasAgent _taskToolAvail : Bool) (procOutcome actionOutcome : Except String Unit)
    (now : ℚ) : TimerState :=
  match lookupTimer s.timers timer_id with
  | none => s
  | some t =>
    if t.status = TStatus.active then
      let s2 : TimerState :=
        { s with logs := s.logs ++ fireLogs t hasAgent procOutcome actionOutcome }
      match t.recurrence_interval with
      | some i =>
        if t.is_recurring = true ∧ ¬ i = 0 then
          save_timer_to_redis s2 { t with next_run := engineNextRun t.next_run i now }
        else save_timer_to_redis s2 { t with status := TStatus.completed }
      | none => save_timer_to_redis s2 { t with status := TStatus.completed }
    else s

/-- Message returned by `create_timer`/`edit_timer` when `_parse_time_spec`
produced no result. -/
def couldNotParseMsg : String := "error: could not parse time spec"

/-- The `if procedure: self._validate_python_code(procedure)` guard in
`create_timer`. -/
def procCheck : Option Procedure → Except String Unit
  | some p => validate_python_code p
  | none => Except.ok ()

/-- The `if procedure is not None: ... validate` guard in `edit_timer`;
`ok true` means a procedure was supplied and validated. -/
def editProcCheck : Option Procedure → Except String Bool
  | some p => (validate_python_code p).map (fun _ => true)
  | none => Except.ok false

/-- `create_timer`: validate the procedure, parse the spec (both can raise
and are caught by the function's outer try/except, which logs and returns an
error string with nothing persisted), reject an unparseable spec, otherwise
build the record, store it and persist it.  The fresh `uuid` id is an input. -/
def create_timer (s : TimerState) (ts : TimeSpec) (nameOpt : Option String)
    (action : Option String) (procOpt : Option Procedure) (timer_id : String)
    (now : DateTime) : String × TimerState :=
  match procCheck procOpt with
  | Except.error e =>
    ("error creating timer: " ++ e, { s with logs := s.logs ++ [e] })
  | Except.ok _ =>
    match parse_time_spec ts now with
    | Except.error e =>
      ("error creating timer: " ++ e, { s with logs := s.logs ++ [e] })
    | Except.ok none => (couldNotParseMsg, s)
    | Except.ok (some (nr, isrec, iv)) =>
      let name := nameOpt.getD ("Timer-" ++ timer_id)
      let t : Timer :=
        { id := timer_id, name := name, time_spec := ts, next_run := nr,
          is_recurring := isrec, recurrence_interval := iv, action := action,
          procedure := procOpt, created_at := now.toSecs,
          status := TStatus.active }
      let s' := save_timer_to_redis s t
      (if isrec then "recurring timer created, id " ++ timer_id
       else "one-shot timer created, id " ++ timer_id, s')

/-- The three sequential in-place field writes of `edit_timer`
(`timer["procedure"] = ...`, `timer["name"] = ...`, `timer["action"] = ...`),
each applied only when the corresponding argument was supplied. -/
def applyEditFields (t0 : Timer) (applyProc : Bool) (procOpt : Option Procedure)
    (nameOpt actionOpt : Option String) : Timer :=
  { t0 with
    procedure := if applyProc then procOpt else t0.procedure
    name := nameOpt.getD t0.name
    action := match actionOpt with | some a => some a | none => t0.action }

theorem applyEditFields_id (t0 : Timer) (ap : Bool) (po : Option Procedure)
    (no ao : Option String) : (applyEditFields t0 ap po no ao).id = t0.id := rfl

theorem applyEditFields_status (t0 : Timer) (ap : Bool) (po : Option Procedure)
    (no ao : Option String) : (applyEditFields t0 ap po no ao).status = t0.status := rfl

/-- `edit_timer`: not-found check; procedure validated first (a bad procedure
returns before any mutation); then the supplied procedure/name/action fields
are written into the in-memory record one by one; then a supplied spec is
re-parsed — an unparseable spec returns an error string with the earlier
in-memory field writes already applied and no Redis save, while a spec on
which the parser itself raises propagates the exception out of `edit_timer`
(there is no try/except around the parse, unlike `create_timer`).  On success
all schedule fields are replaced and the record is persisted. -/
def edit_timer (s : TimerState) (timer_id : String) (tsOpt : Option TimeSpec)
    (nameOpt actionOpt : Option String) (procOpt : Option Procedure)
    (now : DateTime) :
    Except (String × TimerState) (String × TimerState) :=
  match lookupTimer s.timers timer_id with
  | none => Except.ok ("timer not found", s)
  | some t0 =>
    match editProcCheck procOpt with
    | Except.error e => Except.ok ("procedure validation error: " ++ e, s)
    | Except.ok applyProc =>
      let t3 := applyEditFields t0 applyProc procOpt nameOpt actionOpt
      let s1 := { s with timers := upsertTimer s.timers timer_id t3 }
      match tsOpt with
      | none => Except.ok ("timer updated", save_timer_to_redis s1 t3)
      | some tsp =>
        match parse_time_spec tsp now with
        | Except.error e => Except.error (e, s1)
        | Except.ok none => Except.ok (couldNotParseMsg, s1)
        | Except.ok (some (nr, isrec, iv)) =>
          let t4 :=
            { t3 with
              time_spec := tsp
              next_run := nr
              is_recurring := isrec
              recurrence_interval := iv }
          Except.ok ("timer updated",
            save_timer_to_redis { s with timers := upsertTimer s.timers timer_id t4 } t4)

/-- `cancel_timer`: not-found check, then set `status = "cancelled"`
unconditionally (the current status is not inspected) and persist. -/
def cancel_timer (s : TimerState) (timer_id : String) : String × TimerState :=
  match lookupTimer s.timers timer_id with
  | none => ("timer not found", s)
  | some t =>
    let t' := { t with status := TStatus.cancelled }
    ("timer cancelled", save_timer_to_redis s t')

/-- The state an `edit_timer` call leaves behind, whether it returned or
raised (a Python exception does not roll back earlier dict mutations). -/
def editState (r : Except (String × TimerState) (String × TimerState)) :
    TimerState :=
  match r with
  | Except.ok p => p.2
  | Except.error p => p.2

/-- The message an `edit_timer` call produced (return value or exception text). -/
def editMsg (r : Except (String × TimerState) (String × TimerState)) : String :=
  match r with
  | Except.ok p => p.1
  | Except.error p => p.1

/-- Whether a call raised. -/
def exceptIsError : Except α β → Bool
  | Except.error _ => true
  | Except.ok _ => false

/-- States whose dict keys agree with the stored records' `id` fields; every
state the API builds has this shape, since records are always stored under
`timer["id"]`. -/
def IdConsistent (s : TimerState) : Prop :=
  ∀ k t, lookupTimer s.timers k = some t → t.id = k

/-! Helper lemmas about the association-list dict and datetime arithmetic. -/

theorem lookup_upsert_self (m : List (String × Timer)) (k : String) (t : Timer) :
    lookupTimer (upsertTimer m k t) k = some t := by
  induction m with
  | nil => simp [upsertTimer, lookupTimer]
  | cons p rest ih =>
    by_cases h : p.1 = k
    · simp [upsertTimer, lookupTimer, h]
    · simp [upsertTimer, lookupTimer, h, ih]

theorem lookup_upsert_ne (m : List (String × Timer)) (k j : String) (t : Timer)
    (h : ¬ j = k) : lookupTimer (upsertTimer m k t) j = lookupTimer m j := by
  have h' : ¬ k = j := fun hk => h hk.symm
  induction m with
  | nil => simp [upsertTimer, lookupTimer, h']
  | cons p rest ih =>
    by_cases hp : p.1 = k
    · simp [upsertTimer, lookupTimer, hp, h']
    · simp only [upsertTimer, hp, if_false, lookupTimer]
      by_cases hj : p.1 = j
      · simp [hj]
      · simp [hj, ih]

theorem upsert_upsert_self (m : List (String × Timer)) (k : String) (a b : Timer) :
    upsertTimer (upsertTimer m k a) k b = upsertTimer m k b := by
  induction m with
  | nil => simp [upsertTimer]
  | cons p rest ih =>
    by_cases h : p.1 = k
    · simp [upsertTimer, h]
    · simp [upsertTimer, h, ih]

theorem save_timers (s : TimerState) (t : Timer) :
    (save_timer_to_redis s t).timers = upsertTimer s.timers t.id t := rfl

theorem save_redis (s : TimerState) (t : Timer) :
    (save_timer_to_redis s t).redis = some (upsertTimer s.timers t.id t) := rfl

theorem addDay_toSecs (d : DateTime) :
    DateTime.toSecs { d with day := d.day + 1 } = d.toSecs + 86400 := by
  simp only [DateTime.toSecs]
  push_cast
  ring

theorem day_mul_le_toSecs (d : DateTime) :
    (d.day : ℚ) * 86400 ≤ d.toSecs := by
  simp only [DateTime.toSecs]
  have h1 : (0 : ℚ) ≤ (d.hour : ℚ) * 3600 := by positivity
  have h2 : (0 : ℚ) ≤ (d.minute : ℚ) * 60 := by positivity
  have h3 : (0 : ℚ) ≤ (d.second : ℚ) := by positivity
  have h4 : (0 : ℚ) ≤ (d.micro : ℚ) / 1000000 := by positivity
  linarith

theorem toSecs_lt_next_day (d : DateTime) (hd : d.Valid) :
    d.toSecs < (d.day : ℚ) * 86400 + 86400 := by
  obtain ⟨hh, hm, hs, hu⟩ := hd
  simp only [DateTime.toSecs]
  have hh' : (d.hour : ℚ) ≤ 23 := by exact_mod_cast hh
  have hm' : (d.minute : ℚ) ≤ 59 := by exact_mod_cast hm
  have hs' : (d.second : ℚ) ≤ 59 := by exact_mod_cast hs
  have hu' : (d.micro : ℚ) < 1000000 := by exact_mod_cast hu
  have : (d.micro : ℚ) / 1000000 < 1 := by
    rw [div_lt_one (by norm_num)]
    exact hu'
  linarith

/-! Theorems settling the claims. -/

/-- C1: inside `_execute_timer`, a delayed firing of a recurring active timer
is claimed to be rescheduled, via the catch-up computation on the timer's own
`next_run` and interval, to a `next_run` strictly greater than `now`.  The
code instead measures the missed-interval count from the already-incremented
candidate while adding the multiple to the original base: with
`next_run = 0`, `interval = 10` and `now = 25` it writes back `20`, which is
not greater than `now` (the startup resolver applied to the same basis gives
`30`), so the timer immediately re-fires on the next tick. -/
theorem c1_engine_reschedule_lands_in_past :
    engineNextRun 0 10 25 = 20 ∧ engineNextRun 0 10 25 < 25
      ∧ resolveCatchUp 0 10 25 = 30 := by
  refine ⟨?_, ?_, ?_⟩ <;> norm_num [engineNextRun, resolveCatchUp]

/-- C2: the startup catch-up resolver computes
`lastNextRun + (floor((now - lastNextRun)/interval) + 1) * interval`; for
`lastNextRun < now` and `interval > 0` the result is strictly in the future,
differs from the original grid by an exact multiple of the interval, and a
single application suffices: running the per-record startup update twice at
the same `now` equals running it once. -/
theorem c2_startup_catchup_correct (l i n : ℚ) (h1 : l < n) (h2 : 0 < i) :
    resolveCatchUp l i n = l + ((⌊(n - l) / i⌋ + 1 : ℤ) : ℚ) * i
    ∧ n < resolveCatchUp l i n
    ∧ (∃ k : ℤ, resolveCatchUp l i n - l = (k : ℚ) * i)
    ∧ (∀ t : Timer, t.status = TStatus.active → t.is_recurring = true →
        t.recurrence_interval = some i → t.next_run = l →
        updateMissedTimer n (updateMissedTimer n t) = updateMissedTimer n t) := by
  have hne : ¬ i = 0 := ne_of_gt h2
  have hkey : n < resolveCatchUp l i n := by
    unfold resolveCatchUp
    have hfl : (n - l) / i < (⌊(n - l) / i⌋ : ℚ) + 1 := Int.lt_floor_add_one _
    have hmul : n - l < ((⌊(n - l) / i⌋ : ℚ) + 1) * i := (div_lt_iff₀ h2).mp hfl
    push_cast
    linarith
  refine ⟨rfl, hkey, ⟨⌊(n - l) / i⌋ + 1, by unfold resolveCatchUp; push_cast; ring⟩, ?_⟩
  intro t hst hrec hint hnr
  have e1 : updateMissedTimer n t = { t with next_run := resolveCatchUp t.next_run i n } := by
    unfold updateMissedTimer
    simp only [hst, hrec, and_self, if_true, hint]
    rw [if_pos ⟨by rw [hnr]; exact h1, hne⟩]
  rw [e1]
  unfold updateMissedTimer
  simp only [hst, hrec, and_self, if_true, hint]
  rw [if_neg]
  intro hc
  rw [hnr] at hc
  exact absurd hc.1 (not_lt.mpr (le_of_lt hkey))

/-- A concrete `datetime.now()`: day 0 at 14:00:00.000000. -/
def exNow : DateTime :=
  { day := 0, hour := 14, minute := 0, second := 0, micro := 0 }

/-- The extraction record of the spec string "через 0 секунд": the relative
keyword is present and the seconds pattern matches one token with quantity 0. -/
def exTsZeroRel : TimeSpec :=
  { hasCherez := true, hasKazhd := false, hasV := false, hasDaily := false,
    relTokens := [(0, TimeUnit.seconds)], recTokens := [], absTime := none }

/-- The extraction record of the spec string "через 1 минуту 2 часа". -/
def exTsRel : TimeSpec :=
  { hasCherez := true, hasKazhd := false, hasV := false, hasDaily := false,
    relTokens := [(1, TimeUnit.minutes), (2, TimeUnit.hours)], recTokens := [],
    absTime := none }

/-- C3 counterexample: "через 0 секунд" has the relative keyword and one
matched unit token, yet the parser returns no result (the code rejects a zero
summed duration, not a zero token count), refuting the claim that parsing
succeeds whenever one or more unit tokens match. -/
theorem c3_relative_zero_quantity_counterexample :
    exTsZeroRel.hasCherez = true ∧ ¬ exTsZeroRel.relTokens = []
    ∧ parse_relative_time exTsZeroRel exNow = none
    ∧ parse_time_spec exTsZeroRel exNow = Except.ok none := by
  refine ⟨rfl, by decide, rfl, rfl⟩

/-- C3 amended: for a spec carrying the relative keyword, parsing succeeds
exactly when the summed seconds of all matched unit tokens are nonzero, and
then `nextRun = now + sum`, one-shot with no interval; it fails whenever the
sum is zero — in particular when no unit token matched. -/
theorem c3_relative_time_amended (ts : TimeSpec) (now : DateTime)
    (h : ts.hasCherez = true) :
    (¬ sum_unit_tokens ts.relTokens = 0 →
      parse_time_spec ts now = Except.ok (some
        (now.toSecs + (sum_unit_tokens ts.relTokens : ℚ), false, none)))
    ∧ (sum_unit_tokens ts.relTokens = 0 →
      parse_time_spec ts now = Except.ok none) := by
  refine ⟨fun hs => ?_, fun hs => ?_⟩ <;>
    simp [parse_time_spec, h, parse_relative_time, hs]

/-- Witness for C3 on "через 1 минуту 2 часа" (sum 7260 seconds). -/
theorem c3_relative_time_amended_witness :
    parse_time_spec exTsRel exNow = Except.ok (some
      (exNow.toSecs + (sum_unit_tokens exTsRel.relTokens : ℚ), false, none)) :=
  (c3_relative_time_amended exTsRel exNow rfl).1 (by decide)

/-- The extraction record of the spec string "каждые 0 минут". -/
def exTsZeroRec : TimeSpec :=
  { hasCherez := false, hasKazhd := true, hasV := false, hasDaily := false,
    relTokens := [], recTokens := [(0, TimeUnit.minutes)], absTime := none }

/-- The extraction record of the spec string "каждые 10 минут". -/
def exTsRec : TimeSpec :=
  { hasCherez := false, hasKazhd := true, hasV := false, hasDaily := false,
    relTokens := [], recTokens := [(10, TimeUnit.minutes)], absTime := none }

/-- C4 counterexample: "каждые 0 минут" has the recurring keyword and one
matched unit token, yet the parser returns no result, refuting the claim
that parsing succeeds whenever unit tokens match. -/
theorem c4_recurring_zero_quantity_counterexample :
    exTsZeroRec.hasKazhd = true ∧ ¬ exTsZeroRec.recTokens = []
    ∧ parse_recurring_time exTsZeroRec exNow = none
    ∧ parse_time_spec exTsZeroRec exNow = Except.ok none := by
  refine ⟨rfl, by decide, rfl, rfl⟩

/-- C4 amended: for a spec carrying the recurring keyword (and not the
relative keyword, which takes priority), parsing succeeds exactly when the
summed seconds are nonzero, and then `interval = sum`,
`nextRun = now + interval` and the result is recurring; it fails whenever
the sum is zero — in particular when no unit token matched. -/
theorem c4_recurring_time_amended (ts : TimeSpec) (now : DateTime)
    (h1 : ts.hasCherez = false) (h2 : ts.hasKazhd = true) :
    (¬ sum_unit_tokens ts.recTokens = 0 →
      parse_time_spec ts now = Except.ok (some
        (now.toSecs + (sum_unit_tokens ts.recTokens : ℚ), true,
         some (sum_unit_tokens ts.recTokens : ℚ))))
    ∧ (sum_unit_tokens ts.recTokens = 0 →
      parse_time_spec ts now = Except.ok none) := by
  refine ⟨fun hs => ?_, fun hs => ?_⟩ <;>
    simp [parse_time_spec, h1, h2, parse_recurring_time, hs]

/-- Witness for C4 on "каждые 10 минут" (interval 600 seconds). -/
theorem c4_recurring_time_amended_witness :
    parse_time_spec exTsRec exNow = Except.ok (some
      (exNow.toSecs + (sum_unit_tokens exTsRec.recTokens : ℚ), true,
       some (sum_unit_tokens exTsRec.recTokens : ℚ))) :=
  (c4_recurring_time_amended exTsRec exNow rfl rfl).1 (by decide)

/-- C5: for an absolute spec whose `H[:MM]` match yields a valid time of day
(so `now.replace` returns `tgt` = today at `H:MM:00`, minutes defaulting to
0), the parser returns `tgt` when it is strictly after `now` and exactly
`tgt` plus one day when `tgt <= now` (inclusive comparison, so an instant
equal to `now` to the second rolls over), the result is strictly in the
future either way, and it is recurring with interval 86400 exactly when a
daily keyword is present. -/
theorem c5_absolute_time_correct (ts : TimeSpec) (now : DateTime)
    (h : ℕ) (mo : Option ℕ) (tgt : DateTime)
    (habs : ts.absTime = some (h, mo))
    (hrep : now.replaceTime h (mo.getD 0) = Except.ok tgt)
    (hv : now.Valid) :
    parse_absolute_time ts now = Except.ok (some
      ((if tgt.toSecs ≤ now.toSecs then tgt.toSecs + 86400 else tgt.toSecs),
       ts.hasDaily, if ts.hasDaily then some (86400 : ℚ) else none))
    ∧ now.toSecs <
        (if tgt.toSecs ≤ now.toSecs then tgt.toSecs + 86400 else tgt.toSecs) := by
  have htgt : tgt = { now with hour := h, minute := mo.getD 0, second := 0, micro := 0 } := by
    simp only [DateTime.replaceTime] at hrep
    split_ifs at hrep with h1 h2
    all_goals simp_all
  have hday : tgt.day = now.day := by rw [htgt]
  constructor
  · simp only [parse_absolute_time, habs]
    rw [hrep]
    by_cases hle : tgt.toSecs ≤ now.toSecs
    · simp [hle, addDay_toSecs]
    · simp [hle]
  · by_cases hle : tgt.toSecs ≤ now.toSecs
    · rw [if_pos hle]
      have hlow : (now.day : ℚ) * 86400 ≤ tgt.toSecs := by
        have := day_mul_le_toSecs tgt
        rwa [hday] at this
      have hup : now.toSecs < (now.day : ℚ) * 86400 + 86400 := toSecs_lt_next_day now hv
      linarith
    · rw [if_neg hle]
      exact lt_of_not_le hle

/-- The extraction record of "в 15:30" and today-at-15:30 for the witness. -/
def exTsAbs : TimeSpec :=
  { hasCherez := false, hasKazhd := false, hasV := true, hasDaily := false,
    relTokens := [], recTokens := [], absTime := some (15, some 30) }

/-- Today at 15:30:00 relative to `exNow`. -/
def exTgt : DateTime :=
  { day := 0, hour := 15, minute := 30, second := 0, micro := 0 }

/-- Witness for C5: parsing "в 15:30" at 14:00 yields today 15:30, one-shot. -/
theorem c5_absolute_time_correct_witness :
    parse_absolute_time exTsAbs exNow = Except.ok (some
      ((if exTgt.toSecs ≤ exNow.toSecs then exTgt.toSecs + 86400 else exTgt.toSecs),
       exTsAbs.hasDaily, if exTsAbs.hasDaily then some (86400 : ℚ) else none))
    ∧ exNow.toSecs <
        (if exTgt.toSecs ≤ exNow.toSecs then exTgt.toSecs + 86400 else exTgt.toSecs) :=
  c5_absolute_time_correct exTsAbs exNow 15 (some 30) exTgt rfl rfl (by decide)

/-- A one-shot active timer stored under id "t1" with name "old". -/
def exTimerOld : Timer :=
  { id := "t1", name := "old", time_spec := exTsRel, next_run := 100,
    is_recurring := false, recurrence_interval := none, action := none,
    procedure := none, created_at := 0, status := TStatus.active }

/-- A state holding exactly `exTimerOld`, already persisted. -/
def exStateC6 : TimerState :=
  { timers := [("t1", exTimerOld)], redis := some [("t1", exTimerOld)],
    logs := [] }

/-- C6 counterexample: editing "t1" with a new name and an unparseable time
spec reports a validation failure, yet the addressed timer's `name` field in
the in-memory map (the authoritative working copy) has already been changed
from "old" to "new" — the claim that every field is left exactly as it was
is false. -/
theorem c6_edit_field_mutation_counterexample :
    editMsg (edit_timer exStateC6 "t1" (some exTsZeroRel) (some "new") none none exNow)
      = couldNotParseMsg
    ∧ exceptIsError
        (edit_timer exStateC6 "t1" (some exTsZeroRel) (some "new") none none exNow) = false
    ∧ (lookupTimer
        (editState (edit_timer exStateC6 "t1" (some exTsZeroRel) (some "new") none none exNow)).timers
        "t1").map Timer.name = some "new"
    ∧ (lookupTimer exStateC6.timers "t1").map Timer.name = some "old" := by
  exact ⟨rfl, rfl, rfl, rfl⟩

/-- C6 amended: on any validation failure nothing is written to the
persistent store and `create` leaves the in-memory map fully unchanged;
`edit` with an invalid procedure also leaves the state fully unchanged, but
`edit` with a bad time spec only guarantees that the Redis snapshot is
untouched — the procedure/name/action fields supplied before the time-spec
check have already been applied to the in-memory record. -/
theorem c6_validation_failure_amended (s : TimerState) (ts : TimeSpec)
    (nameOpt actionOpt : Option String) (procOpt : Option Procedure)
    (tsOpt : Option TimeSpec) (tid timer_id : String) (now : DateTime) :
    ((∀ r, ¬ parse_time_spec ts now = Except.ok (some r)) →
      (create_timer s ts nameOpt actionOpt procOpt timer_id now).2.timers = s.timers
      ∧ (create_timer s ts nameOpt actionOpt procOpt timer_id now).2.redis = s.redis)
    ∧ (∀ p e, procOpt = some p → validate_python_code p = Except.error e →
      (create_timer s ts nameOpt actionOpt procOpt timer_id now).2.timers = s.timers
      ∧ (create_timer s ts nameOpt actionOpt procOpt timer_id now).2.redis = s.redis)
    ∧ (∀ p e, validate_python_code p = Except.error e →
      editState (edit_timer s tid tsOpt nameOpt actionOpt (some p) now) = s)
    ∧ ((∀ r, ¬ parse_time_spec ts now = Except.ok (some r)) →
      (editState (edit_timer s tid (some ts) nameOpt actionOpt procOpt now)).redis
        = s.redis) := by
  refine ⟨?_, ?_, ?_, ?_⟩
  · intro hnp
    cases hpc : procCheck procOpt with
    | error e => simp [create_timer, hpc]
    | ok u =>
      cases hps : parse_time_spec ts now with
      | error e => simp [create_timer, hpc, hps]
      | ok o =>
        cases o with
        | none => simp [create_timer, hpc, hps]
        | some r => exact absurd hps (hnp r)
  · intro p e hp hv
    subst hp
    simp [create_timer, procCheck, hv]
  · intro p e hv
    cases hl : lookupTimer s.timers tid with
    | none => simp [edit_timer, hl, editState]
    | some t0 =>
      simp [edit_timer, hl, editProcCheck, hv, Except.map, editState]
  · intro hnp
    cases hl : lookupTimer s.timers tid with
    | none => simp [edit_timer, hl, editState]
    | some t0 =>
      cases hpc : editProcCheck procOpt with
      | error e => simp [edit_timer, hl, hpc, editState]
      | ok applyProc =>
        cases hps : parse_time_spec ts now with
        | error e => simp [edit_timer, hl, hpc, hps, editState]
        | ok o =>
          cases o with
          | none => simp [edit_timer, hl, hpc, hps, editState]
          | some r => exact absurd hps (hnp r)

/-- Witness for C6 on the unparseable spec "через 0 секунд": create leaves
the map and the snapshot unchanged, edit leaves the snapshot unchanged. -/
theorem c6_validation_failure_amended_witness :
    ((create_timer exStateC6 exTsZeroRel none none none "t2" exNow).2.timers
        = exStateC6.timers
      ∧ (create_timer exStateC6 exTsZeroRel none none none "t2" exNow).2.redis
        = exStateC6.redis)
    ∧ (editState (edit_timer exStateC6 "t1" (some exTsZeroRel) none none none exNow)).redis
        = exStateC6.redis := by
  have hnp : ∀ r, ¬ parse_time_spec exTsZeroRel exNow = Except.ok (some r) := by
    intro r hr
    rw [show parse_time_spec exTsZeroRel exNow = Except.ok none from rfl] at hr
    injection hr with h
    cases h
  exact ⟨(c6_validation_failure_amended exStateC6 exTsZeroRel none none none none "t1" "t2" exNow).1 hnp,
    (c6_validation_failure_amended exStateC6 exTsZeroRel none none none none "t1" "t2" exNow).2.2.2 hnp⟩

/-- An active one-shot timer inserted first, due later (next_run 100). -/
def exTimerA : Timer :=
  { id := "a", name := "A", time_spec := exTsRel, next_run := 100,
    is_recurring := false, recurrence_interval := none, action := none,
    procedure := none, created_at := 0, status := TStatus.active }

/-- An active one-shot timer inserted second, due sooner (next_run 50). -/
def exTimerB : Timer :=
  { id := "b", name := "B", time_spec := exTsRel, next_run := 50,
    is_recurring := false, recurrence_interval := none, action := none,
    procedure := none, created_at := 0, status := TStatus.active }

/-- A state with two active timers whose insertion order disagrees with the
order of their `next_run` values. -/
def exStateC7 : TimerState :=
  { timers := [("a", exTimerA), ("b", exTimerB)], redis := none, logs := [] }

/-- C7 counterexample: `list_timers` iterates the active timers in the
dict's insertion order — there is no sort in the source — so a state whose
first-inserted active timer is due later than the second yields a listing
whose `next_run` sequence is not ascending, refuting the sorted-by-nextRun
claim. -/
theorem c7_list_not_sorted_counterexample :
    (∀ p, p ∈ exStateC7.timers → p.2.status = TStatus.active)
    ∧ activeTimers exStateC7.timers = [("a", exTimerA), ("b", exTimerB)]
    ∧ (activeTimers exStateC7.timers).map (fun p => p.2.next_run) = [100, 50]
    ∧ ¬ List.Sorted (fun a b : ℚ => a ≤ b)
        ((activeTimers exStateC7.timers).map (fun p => p.2.next_run)) := by
  refine ⟨by decide, rfl, rfl, ?_⟩
  rw [show (activeTimers exStateC7.timers).map (fun p => p.2.next_run)
      = ([100, 50] : List ℚ) from rfl]
  intro hsort
  rw [List.sorted_cons] at hsort
  have := hsort.1 50 (by simp)
  norm_num at this

/-- C7 amended: `list_timers` shows exactly the active timers, in the map's
insertion order (a read-only filter that reorders and mutates nothing), not
sorted by `next_run`. -/
theorem c7_list_projection_amended (s : TimerState) :
    List.Sublist (activeTimers s.timers) s.timers
    ∧ (∀ p, p ∈ activeTimers s.timers → p.2.status = TStatus.active)
    ∧ (∀ p, p ∈ s.timers → p.2.status = TStatus.active →
        p ∈ activeTimers s.timers) := by
  refine ⟨List.filter_sublist _, ?_, ?_⟩
  · intro p hp
    have := List.of_mem_filter hp
    simpa using this
  · intro p hp hs
    exact List.mem_filter.mpr ⟨hp, by simpa using hs⟩

/-- Witness for C7 on the two-timer state. -/
theorem c7_list_projection_amended_witness :
    List.Sublist (activeTimers exStateC7.timers) exStateC7.timers
    ∧ ("a", exTimerA) ∈ activeTimers exStateC7.timers := by
  exact ⟨(c7_list_projection_amended exStateC7).1,
    (c7_list_projection_amended exStateC7).2.2 ("a", exTimerA) (by decide) (by decide)⟩

/-! Helper lemmas about the status effects of the operations. -/

theorem lookup_status_upsert (m : List (String × Timer)) (k j : String)
    (t0 t' : Timer) (hl : lookupTimer m k = some t0)
    (hst : t'.status = t0.status) :
    (lookupTimer (upsertTimer m k t') j).map Timer.status
      = (lookupTimer m j).map Timer.status := by
  by_cases hj : j = k
  · subst hj
    rw [lookup_upsert_self, hl]
    simp [hst]
  · rw [lookup_upsert_ne _ _ _ _ hj]

theorem fire_recurring_keeps_record (s : TimerState) (tid : String)
    (ha tt : Bool) (e1 e2 : Except String Unit) (now : ℚ) (t : Timer) (i : ℚ)
    (hl : lookupTimer s.timers tid = some t) (hid : t.id = tid)
    (hst : t.status = TStatus.active) (hrec : t.is_recurring = true)
    (hint : t.recurrence_interval = some i) (hi : ¬ i = 0) :
    lookupTimer (execute_timer s tid ha tt e1 e2 now).timers tid
      = some { t with next_run := engineNextRun t.next_run i now } := by
  simp only [execute_timer, hl, hst, if_true, hint, hrec, hi, not_false_iff,
    and_self, save_timer_to_redis]
  rw [show ({ t with next_run := engineNextRun t.next_run i now } : Timer).id
      = t.id from rfl, hid]
  exact lookup_upsert_self _ _ _

theorem fire_oneshot_completes_record (s : TimerState) (tid : String)
    (ha tt : Bool) (e1 e2 : Except String Unit) (now : ℚ) (t : Timer)
    (hl : lookupTimer s.timers tid = some t) (hid : t.id = tid)
    (hst : t.status = TStatus.active) (hnr : t.is_recurring = false) :
    lookupTimer (execute_timer s tid ha tt e1 e2 now).timers tid
      = some { t with status := TStatus.completed } := by
  have hres : execute_timer s tid ha tt e1 e2 now
      = save_timer_to_redis
          { s with logs := s.logs ++ fireLogs t ha e1 e2 }
          { t with status := TStatus.completed } := by
    cases hint : t.recurrence_interval with
    | none => simp [execute_timer, hl, hst, hint]
    | some i => simp [execute_timer, hl, hst, hint, hnr]
  rw [hres]
  simp only [save_timer_to_redis]
  rw [show ({ t with status := TStatus.completed } : Timer).id = t.id from rfl, hid]
  exact lookup_upsert_self _ _ _

theorem fire_not_active_noop (s : TimerState) (tid : String)
    (ha tt : Bool) (e1 e2 : Except String Unit) (now : ℚ) (t : Timer)
    (hl : lookupTimer s.timers tid = some t)
    (hst : ¬ t.status = TStatus.active) :
    execute_timer s tid ha tt e1 e2 now = s := by
  simp [execute_timer, hl, hst]

/-- Witness for C2 at `lastNextRun = 0`, `interval = 10`, `now = 25`. -/
theorem c2_startup_catchup_correct_witness :
    resolveCatchUp 0 10 25 = 0 + ((⌊((25 : ℚ) - 0) / 10⌋ + 1 : ℤ) : ℚ) * 10
    ∧ (25 : ℚ) < resolveCatchUp 0 10 25
    ∧ (∃ k : ℤ, resolveCatchUp 0 10 25 - 0 = (k : ℚ) * 10)
    ∧ (∀ t : Timer, t.status = TStatus.active → t.is_recurring = true →
        t.recurrence_interval = some 10 → t.next_run = 0 →
        updateMissedTimer 25 (updateMissedTimer 25 t) = updateMissedTimer 25 t) :=
  c2_startup_catchup_correct 0 10 25 (by norm_num) (by norm_num)

/-- C9: every failure of the procedure payload or of the Task-Sink/Inbox
delegation is caught inside `_execute_timer`: the function is total (nothing
propagates to the scheduler loop), the resulting timer map and Redis snapshot
are identical to those of a fully successful firing (only the log differs),
and an active recurring timer is still rescheduled to exactly the next
occurrence with its status still `active`. -/
theorem c9_engine_errors_suppressed (s : TimerState) (tid : String)
    (ha tt : Bool) (e1 e2 : Except String Unit) (now : ℚ) :
    ((execute_timer s tid ha tt e1 e2 now).timers
        = (execute_timer s tid ha tt (Except.ok ()) (Except.ok ()) now).timers
      ∧ (execute_timer s tid ha tt e1 e2 now).redis
        = (execute_timer s tid ha tt (Except.ok ()) (Except.ok ()) now).redis)
    ∧ (∀ t i, lookupTimer s.timers tid = some t → t.id = tid →
        t.status = TStatus.active → t.is_recurring = true →
        t.recurrence_interval = some i → ¬ i = 0 →
        statusAt (execute_timer s tid ha tt e1 e2 now) tid = some TStatus.active
        ∧ lookupTimer (execute_timer s tid ha tt e1 e2 now).timers tid
            = some { t with next_run := engineNextRun t.next_run i now }) := by
  constructor
  · cases hl : lookupTimer s.timers tid with
    | none => simp [execute_timer, hl]
    | some t =>
      by_cases hst : t.status = TStatus.active
      · cases hint : t.recurrence_interval with
        | none => simp [execute_timer, hl, hst, hint, save_timer_to_redis]
        | some i =>
          by_cases hri : t.is_recurring = true ∧ ¬ i = 0
          · simp [execute_timer, hl, hst, hint, hri, save_timer_to_redis]
          · simp [execute_timer, hl, hst, hint, hri, save_timer_to_redis]
      · simp [execute_timer, hl, hst]
  · intro t i hl hid hst hrec hint hi
    have hrk := fire_recurring_keeps_record s tid ha tt e1 e2 now t i hl hid hst hrec hint hi
    refine ⟨?_, hrk⟩
    simp [statusAt, hrk, hst]

/-- A recurring active timer used for the C9 witness. -/
def exTimerRec : Timer :=
  { id := "r", name := "R", time_spec := exTsRec, next_run := 0,
    is_recurring := true, recurrence_interval := some 600, action := some "ping",
    procedure := none, created_at := 0, status := TStatus.active }

/-- A state holding exactly `exTimerRec`. -/
def exStateC9 : TimerState :=
  { timers := [("r", exTimerRec)], redis := none, logs := [] }

/-- Witness for C9: a firing whose procedure and delegation both raise still
reschedules the recurring timer and leaves it active. -/
theorem c9_engine_errors_suppressed_witness :
    statusAt (execute_timer exStateC9 "r" true true
        (Except.error "boom") (Except.error "sink down") 1000) "r"
      = some TStatus.active
    ∧ lookupTimer (execute_timer exStateC9 "r" true true
        (Except.error "boom") (Except.error "sink down") 1000).timers "r"
      = some { exTimerRec with next_run := engineNextRun exTimerRec.next_run 600 1000 } :=
  (c9_engine_errors_suppressed exStateC9 "r" true true
      (Except.error "boom") (Except.error "sink down") 1000).2
    exTimerRec 600 rfl rfl rfl rfl rfl (by norm_num)

/-- The empty initial state. -/
def c8s0 : TimerState := { timers := [], redis := none, logs := [] }

/-- State after creating a one-shot timer "через 1 минуту 2 часа". -/
def c8s1 : TimerState := (create_timer c8s0 exTsRel none none none "t1" exNow).2

/-- State after the Engine fires that one-shot timer. -/
def c8s2 : TimerState :=
  execute_timer c8s1 "t1" false false (Except.ok ()) (Except.ok ()) 100000

/-- State after cancelling the already-completed timer. -/
def c8s3 : TimerState := (cancel_timer c8s2 "t1").2

/-- C8 counterexample: through an actual operation sequence
(create -> fire -> cancel), a non-recurring timer reaches `completed` and is
then moved to `cancelled` by `cancel_timer`, which never inspects the current
status — so `completed` is not terminal and `cancelled` is reachable from a
state other than `active`, refuting the claimed state machine. -/
theorem c8_completed_not_terminal_counterexample :
    statusAt c8s1 "t1" = some TStatus.active
    ∧ statusAt c8s2 "t1" = some TStatus.completed
    ∧ statusAt c8s3 "t1" = some TStatus.cancelled := ⟨rfl, rfl, rfl⟩

/-- C8 amended: in any state whose map keys match the records' ids (as every
API-built state does), the transitions are: `cancel` moves any existing
timer — whatever its current status, including `completed` — to `cancelled`
and is a no-op on unknown ids; `edit` never changes any status; `create`
under a fresh id touches no other timer's status and leaves the new id
`active` (or absent on validation failure); firing keeps an active recurring
timer with nonzero interval `active`, completes an active non-recurring
timer, and does nothing to a non-active timer. -/
theorem c8_status_machine_amended (s : TimerState) (hs : IdConsistent s)
    (ha tt : Bool) (e1 e2 : Except String Unit) (now : ℚ) (now' : DateTime) :
    (∀ tid t, lookupTimer s.timers tid = some t →
        statusAt (cancel_timer s tid).2 tid = some TStatus.cancelled)
    ∧ (∀ tid, lookupTimer s.timers tid = none → (cancel_timer s tid).2 = s)
    ∧ (∀ tid tsOpt nameOpt actionOpt procOpt j,
        statusAt (editState (edit_timer s tid tsOpt nameOpt actionOpt procOpt now')) j
          = statusAt s j)
    ∧ (∀ ts2 nameOpt actionOpt procOpt nid, lookupTimer s.timers nid = none →
        ((∀ j, ¬ j = nid →
            statusAt (create_timer s ts2 nameOpt actionOpt procOpt nid now').2 j
              = statusAt s j)
          ∧ (statusAt (create_timer s ts2 nameOpt actionOpt procOpt nid now').2 nid
              = some TStatus.active
            ∨ statusAt (create_timer s ts2 nameOpt actionOpt procOpt nid now').2 nid
              = none)))
    ∧ (∀ tid t i, lookupTimer s.timers tid = some t → t.status = TStatus.active →
        t.is_recurring = true → t.recurrence_interval = some i → ¬ i = 0 →
        statusAt (execute_timer s tid ha tt e1 e2 now) tid = some TStatus.active)
    ∧ (∀ tid t, lookupTimer s.timers tid = some t → t.status = TStatus.active →
        t.is_recurring = false →
        statusAt (execute_timer s tid ha tt e1 e2 now) tid = some TStatus.completed)
    ∧ (∀ tid t, lookupTimer s.timers tid = some t → ¬ t.status = TStatus.active →
        execute_timer s tid ha tt e1 e2 now = s) := by
  refine ⟨?_, ?_, ?_, ?_, ?_, ?_, ?_⟩
  · intro tid t hl
    have hid := hs tid t hl
    simp only [cancel_timer, hl, statusAt, save_timer_to_redis]
    rw [show ({ t with status := TStatus.cancelled } : Timer).id = t.id from rfl, hid,
      lookup_upsert_self]
    rfl
  · intro tid hl
    simp [cancel_timer, hl]
  · intro tid tsOpt nameOpt actionOpt procOpt j
    cases hl : lookupTimer s.timers tid with
    | none => simp [edit_timer, hl, editState]
    | some t0 =>
      have hid := hs tid t0 hl
      cases hpc : editProcCheck procOpt with
      | error e => simp [edit_timer, hl, hpc, editState]
      | ok ap =>
        cases tsOpt with
        | none =>
          simp only [edit_timer, hl, hpc, editState, save_timer_to_redis, statusAt]
          rw [applyEditFields_id, hid, upsert_upsert_self]
          exact lookup_status_upsert s.timers tid j t0 _ hl
            (applyEditFields_status t0 ap procOpt nameOpt actionOpt)
        | some tsx =>
          cases hps : parse_time_spec tsx now' with
          | error e =>
            simp only [edit_timer, hl, hpc, hps, editState, statusAt]
            exact lookup_status_upsert s.timers tid j t0 _ hl
              (applyEditFields_status t0 ap procOpt nameOpt actionOpt)
          | ok o =>
            cases o with
            | none =>
              simp only [edit_timer, hl, hpc, hps, editState, statusAt]
              exact lookup_status_upsert s.timers tid j t0 _ hl
                (applyEditFields_status t0 ap procOpt nameOpt actionOpt)
            | some r =>
              obtain ⟨nr, isrec, iv⟩ := r
              simp only [edit_timer, hl, hpc, hps, editState, statusAt,
                save_timer_to_redis]
              rw [show ({ applyEditFields t0 ap procOpt nameOpt actionOpt with
                    time_spec := tsx, next_run := nr, is_recurring := isrec,
                    recurrence_interval := iv } : Timer).id
                  = (applyEditFields t0 ap procOpt nameOpt actionOpt).id from rfl,
                applyEditFields_id, hid, upsert_upsert_self]
              exact lookup_status_upsert s.timers tid j t0 _ hl
                (applyEditFields_status t0 ap procOpt nameOpt actionOpt)
  · intro ts2 nameOpt actionOpt procOpt nid hfresh
    constructor
    · intro j hj
      cases hpc : procCheck procOpt with
      | error e => simp [create_timer, hpc, statusAt]
      | ok u =>
        cases hps : parse_time_spec ts2 now' with
        | error e => simp [create_timer, hpc, hps, statusAt]
        | ok o =>
          cases o with
          | none => simp [create_timer, hpc, hps, statusAt]
          | some r =>
            obtain ⟨nr, isrec, iv⟩ := r
            simp only [create_timer, hpc, hps, statusAt, save_timer_to_redis]
            rw [lookup_upsert_ne _ _ _ _ hj]
    · cases hpc : procCheck procOpt with
      | error e =>
        right
        simp [create_timer, hpc, statusAt, hfresh]
      | ok u =>
        cases hps : parse_time_spec ts2 now' with
        | error e =>
          right
          simp [create_timer, hpc, hps, statusAt, hfresh]
        | ok o =>
          cases o with
          | none =>
            right
            simp [create_timer, hpc, hps, statusAt, hfresh]
          | some r =>
            obtain ⟨nr, isrec, iv⟩ := r
            left
            simp only [create_timer, hpc, hps, statusAt, save_timer_to_redis]
            rw [lookup_upsert_self]
            rfl
  · intro tid t i hl hst hrec hint hi
    have hid := hs tid t hl
    have hrk := fire_recurring_keeps_record s tid ha tt e1 e2 now t i hl hid hst hrec hint hi
    simp [statusAt, hrk, hst]
  · intro tid t hl hst hnr
    have hid := hs tid t hl
    have hrk := fire_oneshot_completes_record s tid ha tt e1 e2 now t hl hid hst hnr
    simp [statusAt, hrk]
  · intro tid t hl hst
    exact fire_not_active_noop s tid ha tt e1 e2 now t hl hst

/-- The two-timer state `exStateC7` stores each record under its own id. -/
theorem exStateC7_idConsistent : IdConsistent exStateC7 := by
  intro k t h
  simp only [exStateC7, lookupTimer] at h
  split_ifs at h with h1 h2
  · injection h with h'
    rw [← h', ← h1]
    rfl
  · injection h with h'
    rw [← h', ← h2]
    rfl

/-- Witness for C8: cancelling moves an active timer to `cancelled`, and
firing completes an active one-shot timer. -/
theorem c8_status_machine_amended_witness :
    statusAt (cancel_timer exStateC7 "a").2 "a" = some TStatus.cancelled
    ∧ statusAt (execute_timer exStateC7 "a" false false
        (Except.ok ()) (Except.ok ()) 0) "a" = some TStatus.completed :=
  ⟨(c8_status_machine_amended exStateC7 exStateC7_idConsistent false false
      (Except.ok ()) (Except.ok ()) 0 exNow).1 "a" exTimerA rfl,
   (c8_status_machine_amended exStateC7 exStateC7_idConsistent false false
      (Except.ok ()) (Except.ok ()) 0 exNow).2.2.2.2.2.1 "a" exTimerA rfl rfl rfl⟩

/-- The extraction record of the spec string "в 25:00": the absolute keyword
with an out-of-range hour, on which `now.replace(hour=25, ...)` raises. -/
def exTs25 : TimeSpec :=
  { hasCherez := false, hasKazhd := false, hasV := true, hasDaily := false,
    relTokens := [], recTokens := [], absTime := some (25, some 0) }

/-- C10 counterexample: editing an existing timer with the spec "в 25:00"
raises the parser's hour-range exception out of `edit_timer` (the function
has no try/except around `_parse_time_spec`, unlike `create_timer`),
refuting the claim that every API operation returns a result string instead
of raising. -/
theorem c10_edit_raises_counterexample :
    exceptIsError (edit_timer exStateC6 "t1" (some exTs25) none none none exNow) = true
    ∧ editMsg (edit_timer exStateC6 "t1" (some exTs25) none none none exNow)
        = "hour must be in 0..23" := ⟨rfl, rfl⟩

/-- C10 amended: `create` catches everything — on a spec whose absolute hour
is out of range it returns an error string and persists nothing — and
`cancel`/`list`/`describe` have no raising constructs; but `edit` on an
existing timer with such a spec propagates the parser's exception to its
caller. -/
theorem c10_api_no_raise_amended (s : TimerState) (ts : TimeSpec)
    (nameOpt actionOpt : Option String) (procOpt : Option Procedure)
    (nid tid : String) (now : DateTime) (hnum : ℕ) (mo : Option ℕ)
    (h1 : ts.hasCherez = false) (h2 : ts.hasKazhd = false) (h3 : ts.hasV = true)
    (habs : ts.absTime = some (hnum, mo)) (hh : 23 < hnum)
    (hex : (lookupTimer s.timers tid).isSome = true) :
    ((create_timer s ts nameOpt actionOpt procOpt nid now).2.timers = s.timers
      ∧ (create_timer s ts nameOpt actionOpt procOpt nid now).2.redis = s.redis)
    ∧ exceptIsError (edit_timer s tid (some ts) nameOpt actionOpt none now) = true := by
  have hnle : ¬ hnum ≤ 23 := not_le.mpr hh
  have hperr : parse_time_spec ts now = Except.error "hour must be in 0..23" := by
    simp [parse_time_spec, h1, h2, h3, parse_absolute_time, habs,
      DateTime.replaceTime, hnle]
  constructor
  · cases hpc : procCheck procOpt with
    | error e => simp [create_timer, hpc]
    | ok u => simp [create_timer, hpc, hperr]
  · cases hl : lookupTimer s.timers tid with
    | none => simp [lookupTimer, hl] at hex
    | some t0 =>
      simp [edit_timer, hl, editProcCheck, hperr, exceptIsError]

/-- Witness for C10 on "в 25:00" against the one-timer state. -/
theorem c10_api_no_raise_amended_witness :
    ((create_timer exStateC6 exTs25 none none none "t9" exNow).2.timers
        = exStateC6.timers
      ∧ (create_timer exStateC6 exTs25 none none none "t9" exNow).2.redis
        = exStateC6.redis)
    ∧ exceptIsError (edit_timer exStateC6 "t1" (some exTs25) none none none exNow)
        = true :=
  c10_api_no_raise_amended exStateC6 exTs25 none none none "t9" "t1" exNow 25 (some 0)
    rfl rfl rfl rfl (by norm_num) rfl

end TimerTool
